import Mathlib

/-!
Shallow embedding of the request-validation engine of the Solvait HR
assistant (`app/mcp/hr_service.py` and `app/mcp/tools.py`): leave-request
submission with balance accounting and team-conflict detection, excuse
creation with reason and time validation, and the clock-time parser.

Dates are modelled as integers counting calendar days (the code only
subtracts and compares dates).  The `balance_days` column is declared as a
SQL float, but every operation on it adds, subtracts or compares whole
days, so it is modelled as `Int`.
-/

namespace Solvait

/-- Leave categories, from `models.LeaveType`. -/
inductive LeaveType where
  | annual
  | sick
  | unpaid
deriving DecidableEq, Repr

/-- Request statuses, from `models.RequestStatus`. -/
inductive RequestStatus where
  | pending
  | approved
  | rejected
  | resolved
deriving DecidableEq, Repr

/-- Excuse categories, from `models.ExcuseType`. -/
inductive ExcuseType where
  | late_arrival
  | early_departure
deriving DecidableEq, Repr

/-- Python `str.strip` on a character list (ASCII whitespace). -/
def pyStrip (l : List Char) : List Char :=
  ((l.dropWhile Char.isWhitespace).reverse.dropWhile Char.isWhitespace).reverse

/-- Python `str.lower`; ASCII case folding suffices for the inputs involved
(Arabic has no case). -/
def pyLower (l : List Char) : List Char := l.map Char.toLower

/-- Whether `pat` occurs at the start of the second list. -/
def startsWithL : List Char → List Char → Bool
  | [], _ => true
  | _ :: _, [] => false
  | p :: ps, c :: cs => p == c && startsWithL ps cs

/-- Python's `pat in s`: substring occurrence test. -/
def hasSubL (pat : List Char) : List Char → Bool
  | [] => pat.isEmpty
  | c :: cs => startsWithL pat (c :: cs) || hasSubL pat cs

/-- Rejection of doubled `_` separators inside a Python integer literal. -/
def noDoubleSep : List Char → Bool
  | '_' :: '_' :: _ => false
  | _ :: c :: cs => noDoubleSep (c :: cs)
  | _ => true

/-- Valid Python integer digit sequence: nonempty, starts and ends with a
digit, contains only digits and single `_` separators. -/
def pyDigitsOk (l : List Char) : Bool :=
  match l with
  | [] => false
  | c :: _ =>
      c.isDigit && (l.getLast?.any Char.isDigit) &&
      l.all (fun d => d.isDigit || d == '_') && noDoubleSep l

/-- Numeric value of a digit sequence, skipping `_` separators. -/
def digitsVal (l : List Char) : Nat :=
  l.foldl (fun acc c => if c.isDigit then acc * 10 + (c.toNat - '0'.toNat) else acc) 0

/-- Python `int(s)`: optional surrounding whitespace, optional sign, digits
with `_` separators; `none` models `ValueError`. -/
def pyIntOfChars (l : List Char) : Option Int :=
  match pyStrip l with
  | '-' :: rest => if pyDigitsOk rest then some (-(digitsVal rest : Int)) else none
  | '+' :: rest => if pyDigitsOk rest then some ((digitsVal rest : Int)) else none
  | rest => if pyDigitsOk rest then some ((digitsVal rest : Int)) else none

/-- One alternative of the pattern `am|pm|a.m.?|p.m.?` matched at the head of
the list, returning the remainder.  Variants with the optional dot are tried
longest first, mirroring the greedy `.?`. -/
def amPmTok : List Char → Option (List Char)
  | 'a' :: 'm' :: rest => some rest
  | 'p' :: 'm' :: rest => some rest
  | 'a' :: '.' :: 'm' :: '.' :: rest => some rest
  | 'a' :: '.' :: 'm' :: rest => some rest
  | 'p' :: '.' :: 'm' :: '.' :: rest => some rest
  | 'p' :: '.' :: 'm' :: rest => some rest
  | _ => none

/-- Attempted match of the substitution pattern at the current position:
optional whitespace, an am or pm token, optional trailing whitespace. -/
def amPmMatch (l : List Char) : Option (List Char) :=
  match amPmTok (l.dropWhile Char.isWhitespace) with
  | some rest => some (rest.dropWhile Char.isWhitespace)
  | none => none

/-- Deletion of every occurrence of the am/pm pattern, scanning left to right
as `re.sub(pattern, '', s)` does.  The fuel is the list length, which bounds
the number of scanning steps, so the zero-fuel case is never reached. -/
def subAmPmGo : Nat → List Char → List Char
  | 0, l => l
  | _ + 1, [] => []
  | fuel + 1, c :: cs =>
    match amPmMatch (c :: cs) with
    | some rest => subAmPmGo fuel rest
    | none => c :: subAmPmGo fuel cs

/-- The cleaned string: `re.sub(r'\s*(am|pm|a\.m\.?|p\.m\.?)\s*', '', s)`. -/
def subAmPm (l : List Char) : List Char := subAmPmGo l.length l

/-- Python `s.split(sep)` for a single-character separator. -/
def splitOnChar (sep : Char) : List Char → List (List Char)
  | [] => [[]]
  | c :: cs =>
    match splitOnChar sep cs with
    | [] => [[]]
    | h :: t => if c == sep then [] :: h :: t else (c :: h) :: t

/-- Two-part split with integer conversion, from the separator branch of
`parse_time`; any other number of parts or a failed conversion rejects. -/
def splitHM (sep : Char) (clean : List Char) : Option (Int × Int) :=
  match splitOnChar sep clean with
  | [p0, p1] =>
    match pyIntOfChars p0, pyIntOfChars p1 with
    | some h, some m => some (h, m)
    | _, _ => none
  | _ => none

/-- Conversion of a 12-hour reading to 24-hour, from the `if`/`elif` chain in
`parse_time`: PM adds 12 when the hour is below 12, otherwise 12 AM becomes
hour 0. -/
def convert12 (is_pm is_am : Bool) (hour : Int) : Int :=
  if is_pm ∧ hour < 12 then hour + 12
  else if is_am ∧ hour = 12 then 0
  else hour

/-- Final range validation and assembly in `parse_time`: any hour outside
0..23 or minute outside 0..59 is rejected. -/
def finishTime (is_pm is_am : Bool) (hm : Int × Int) : Option (Int × Int) :=
  let hour := convert12 is_pm is_am hm.1
  if 0 ≤ hour ∧ hour ≤ 23 ∧ 0 ≤ hm.2 ∧ hm.2 ≤ 59 then some (hour, hm.2) else none

/-- Numeric extraction branch of `parse_time`: pure digits give an hour-only
reading, otherwise split on `:`, otherwise on `.`, otherwise reject. -/
def rawHM (clean : List Char) : Option (Int × Int) :=
  if clean ≠ [] ∧ clean.all Char.isDigit then
    (pyIntOfChars clean).map (fun h => (h, 0))
  else if clean.contains ':' then splitHM ':' clean
  else if clean.contains '.' then splitHM '.' clean
  else none

/-- The `parse_time` helper defined inside `HRService.create_excuse`
(`hr_service.py`): parses a clock-time string in 24-hour, dotted or 12-hour
AM/PM form and returns `(hour, minute)`, with `none` for rejection. -/
def parse_time (time_str : String) : Option (Int × Int) :=
  if time_str = "" then none
  else
    let low := pyLower (pyStrip time_str.toList)
    let is_pm := hasSubL ['p', 'm'] low || hasSubL ['p', '.', 'm'] low
    let is_am := hasSubL ['a', 'm'] low || hasSubL ['a', '.', 'm'] low
    let clean := pyStrip (subAmPm low)
    match rawHM clean with
    | none => none
    | some hm => finishTime is_pm is_am hm

/-- Employee row (`models.Employee`), restricted to the fields the engine
reads. -/
structure Employee where
  id : String
  department : String
deriving DecidableEq, Repr

/-- Balance row (`models.LeaveBalance`). -/
structure LeaveBalance where
  employee_id : String
  leave_type : LeaveType
  balance_days : Int
deriving DecidableEq, Repr

/-- Leave-request row (`models.LeaveRequest`); `created_at` omitted (never
read by the engine). -/
structure LeaveRequest where
  id : Nat
  employee_id : String
  leave_type : LeaveType
  start_date : Int
  end_date : Int
  reason : Option String
  status : RequestStatus
deriving DecidableEq, Repr

/-- Excuse row (`models.Excuse`); stored times are `(hour, minute)`. -/
structure Excuse where
  id : Nat
  employee_id : String
  date : Int
  excuse_type : ExcuseType
  start_time : Option (Int × Int)
  end_time : Option (Int × Int)
  reason : String
  status : RequestStatus
deriving DecidableEq, Repr

/-- The persistent store: table rows in insertion order plus the
autoincrement counters. -/
structure DB where
  employees : List Employee
  balances : List LeaveBalance
  leave_requests : List LeaveRequest
  excuses : List Excuse
  next_leave_id : Nat
  next_excuse_id : Nat
deriving DecidableEq, Repr

/-- The `.first()` row of the balance query filtered on employee and leave
type. -/
def findBalance (db : DB) (employee_id : String) (lt : LeaveType) :
    Option LeaveBalance :=
  db.balances.find? (fun b => b.employee_id == employee_id && b.leave_type == lt)

/-- The `.first()` row of the employee query filtered on id. -/
def findEmployee (db : DB) (employee_id : String) : Option Employee :=
  db.employees.find? (fun e => e.id == employee_id)

/-- The session-level mutation `balance.balance_days = v` applied to the row
`.first()` returned: replaces the first matching row. -/
def setFirstBalance (l : List LeaveBalance) (employee_id : String)
    (lt : LeaveType) (v : Int) : List LeaveBalance :=
  match l with
  | [] => []
  | b :: bs =>
    if b.employee_id == employee_id && b.leave_type == lt then
      { b with balance_days := v } :: bs
    else b :: setFirstBalance bs employee_id lt v

/-- The synonym mapping in `submit_leave_request`:
`leave_type_mapping.get(leave_type.lower(), leave_type.lower())`. -/
def normalizeLeaveType (leave_type : String) : String :=
  let l := String.mk (pyLower leave_type.toList)
  if l = "annual" then "annual"
  else if l = "sick" then "sick"
  else if l = "unpaid" then "unpaid"
  else if l = "medical" then "sick"
  else if l = "مرضية" then "sick"
  else if l = "سنوية" then "annual"
  else if l = "بدون راتب" then "unpaid"
  else l

/-- Python `LeaveType(value)`; `none` models the `ValueError` branch. -/
def leaveTypeOfString (s : String) : Option LeaveType :=
  if s = "annual" then some .annual
  else if s = "sick" then some .sick
  else if s = "unpaid" then some .unpaid
  else none

/-- Python `ExcuseType(value)`; `none` models the `ValueError` branch. -/
def excuseTypeOfString (s : String) : Option ExcuseType :=
  if s = "late_arrival" then some .late_arrival
  else if s = "early_departure" then some .early_departure
  else none

/-- One entry of the `team_leaves` list built by `get_team_calendar`
(display-only name fields omitted). -/
structure Conflict where
  employee_id : String
  leave_type : LeaveType
  start_date : Int
  end_date : Int
  status : RequestStatus
deriving DecidableEq, Repr

/-- Projection of a leave-request row to its calendar entry. -/
def toConflict (l : LeaveRequest) : Conflict :=
  { employee_id := l.employee_id, leave_type := l.leave_type,
    start_date := l.start_date, end_date := l.end_date, status := l.status }

/-- `HRService.get_team_calendar`: approved or pending leave requests of the
department's employees whose inclusive interval overlaps the queried range
(`start <= query.end` and `end >= query.start`). -/
def get_team_calendar (db : DB) (department : String)
    (start_date end_date : Int) : List Conflict :=
  let dept_ids :=
    (db.employees.filter (fun e => e.department == department)).map (fun e => e.id)
  (db.leave_requests.filter (fun l =>
      dept_ids.contains l.employee_id &&
      (l.status == RequestStatus.approved || l.status == RequestStatus.pending) &&
      decide (l.start_date ≤ end_date) && decide (start_date ≤ l.end_date))).map
    toConflict

/-- Result dictionary of `HRService.submit_leave_request`, one constructor per
return site, carrying the decision-relevant payload of each message. -/
inductive SubmitResult where
  | invalid_leave_type
  | invalid_date_range
  | insufficient_balance (available requested : Int)
  | team_conflict (conflicts : List Conflict)
  | balance_not_found
  | insufficient_balance_commit (available requested : Int)
  | balance_underflow
  | success (request_id : Nat) (days : Int) (balance_info : Option (Int × Int))
deriving DecidableEq, Repr

/-- Step 5 of `HRService.submit_leave_request`: the locked re-check, the
deduction, the negative-balance rollback guard, and the creation of the
pending request row, all committed together. -/
def commitLeave (db : DB) (employee_id : String) (lt : LeaveType)
    (start_date end_date : Int) (reason : Option String) (requested_days : Int) :
    SubmitResult × DB :=
  if lt ≠ LeaveType.unpaid then
    match findBalance db employee_id lt with
    | none => (.balance_not_found, db)
    | some b =>
      if b.balance_days < requested_days then
        (.insufficient_balance_commit b.balance_days requested_days, db)
      else
        let remaining := b.balance_days - requested_days
        if remaining < 0 then (.balance_underflow, db)
        else
          let row : LeaveRequest :=
            ⟨db.next_leave_id, employee_id, lt, start_date, end_date, reason, .pending⟩
          (.success db.next_leave_id requested_days (some (b.balance_days, remaining)),
           { db with
              balances := setFirstBalance db.balances employee_id lt remaining,
              leave_requests := db.leave_requests ++ [row],
              next_leave_id := db.next_leave_id + 1 })
  else
    let row : LeaveRequest :=
      ⟨db.next_leave_id, employee_id, lt, start_date, end_date, reason, .pending⟩
    (.success db.next_leave_id requested_days none,
     { db with
        leave_requests := db.leave_requests ++ [row],
        next_leave_id := db.next_leave_id + 1 })

/-- `HRService.submit_leave_request` (hr_service.py): validates the leave type
and the date range, checks the balance (skipped for unpaid), checks team
conflicts unless `confirm_conflicts` is set (filtering out the requester's own
rows), then performs the atomic deduction and row creation. -/
def submit_leave_request (db : DB) (employee_id leave_type : String)
    (start_date end_date : Int) (reason : Option String)
    (confirm_conflicts : Bool) : SubmitResult × DB :=
  match leaveTypeOfString (normalizeLeaveType leave_type) with
  | none => (.invalid_leave_type, db)
  | some lt =>
    if end_date < start_date then (.invalid_date_range, db)
    else
      let requested_days := end_date - start_date + 1
      let balCheck : Option SubmitResult :=
        if lt ≠ LeaveType.unpaid then
          match findBalance db employee_id lt with
          | none => some (.insufficient_balance 0 requested_days)
          | some b =>
            if b.balance_days < requested_days then
              some (.insufficient_balance b.balance_days requested_days)
            else none
        else none
      match balCheck with
      | some r => (r, db)
      | none =>
        let conflictCheck : Option SubmitResult :=
          if ¬ confirm_conflicts then
            match findEmployee db employee_id with
            | none => none
            | some emp =>
              let team_conflicts :=
                (get_team_calendar db emp.department start_date end_date).filter
                  (fun c => c.employee_id != employee_id)
              if team_conflicts ≠ [] then some (.team_conflict team_conflicts)
              else none
          else none
        match conflictCheck with
        | some r => (r, db)
        | none => commitLeave db employee_id lt start_date end_date reason requested_days

/-- Result of the tool-layer `submit_leave_request` (tools.py); the
date-format parse error is not modelled because dates enter the model already
parsed. -/
inductive ToolSubmitResult where
  | past_date_error
  | invalid_range_error
  | preview (leave_type : String) (days current_balance : Int)
      (remaining_after : Option Int) (insufficient : Bool)
  | service (r : SubmitResult)
deriving DecidableEq, Repr

/-- Balance shown by the preview branch: `service.get_leave_balance` filtered
on the normalized type, first matching row, defaulting to 0 when the type is
invalid or no row exists. -/
def previewBalance (db : DB) (employee_id : String) (normalized : String) : Int :=
  match leaveTypeOfString normalized with
  | none => 0
  | some lt =>
    match findBalance db employee_id lt with
    | none => 0
    | some b => b.balance_days

/-- The tool-layer `submit_leave_request` (tools.py): rejects past start dates
and inverted ranges, returns a non-mutating preview unless `user_confirmed`
lower-cases to `yes`, and otherwise delegates to the service.  The commit
branch's repeated date checks are identical to the shared ones above it and
use the same `today`, so they are represented once. -/
def tool_submit_leave_request (today : Int) (db : DB)
    (employee_id leave_type : String) (start_date end_date : Int)
    (reason : Option String) (confirm_conflicts : Bool)
    (user_confirmed : String) : ToolSubmitResult × DB :=
  if start_date < today then (.past_date_error, db)
  else if end_date < start_date then (.invalid_range_error, db)
  else
    let requested_days := end_date - start_date + 1
    let normalized := normalizeLeaveType leave_type
    if String.mk (pyLower user_confirmed.toList) ≠ "yes" then
      let current_balance := previewBalance db employee_id normalized
      let remaining_after : Option Int :=
        if normalized ≠ "unpaid" then some (current_balance - requested_days)
        else none
      (.preview normalized requested_days current_balance remaining_after
        (decide (normalized ≠ "unpaid" ∧ current_balance < requested_days)), db)
    else
      let r := submit_leave_request db employee_id leave_type start_date end_date
        reason confirm_conflicts
      (.service r.1, r.2)

/-- The `.first()` row of the excuse query filtered on employee, date and
type. -/
def findExcuse (db : DB) (employee_id : String) (d : Int) (et : ExcuseType) :
    Option Excuse :=
  db.excuses.find? (fun e =>
    e.employee_id == employee_id && e.date == d && e.excuse_type == et)

/-- `HRService.check_duplicate_excuse`: the `exists` payload carrying the
referenced excuse's id, reason and status; `none` when the type string is
invalid or no row matches. -/
def check_duplicate_excuse (db : DB) (employee_id : String) (excuse_date : Int)
    (excuse_type : String) : Option (Nat × String × RequestStatus) :=
  match excuseTypeOfString (String.mk (pyLower excuse_type.toList)) with
  | none => none
  | some et =>
    match findExcuse db employee_id excuse_date et with
    | none => none
    | some e => some (e.id, e.reason, e.status)

/-- Result dictionary of `HRService.create_excuse`, one constructor per
return site. -/
inductive ExcuseResult where
  | duplicate_excuse (existing_id : Nat) (existing_reason : String)
      (existing_status : RequestStatus)
  | reason_required
  | invalid_excuse_type
  | invalid_start_time
  | invalid_end_time
  | success (excuse_id : Nat)
deriving DecidableEq, Repr

/-- Parse of an optional time argument in `HRService.create_excuse`: skipped
when absent or empty (`if start_time:` truthiness); an outer `none` models the
error return on a failed parse. -/
def parseOptTime (t : Option String) : Option (Option (Int × Int)) :=
  match t with
  | none => some none
  | some s =>
    if s = "" then some none
    else
      match parse_time s with
      | none => none
      | some hm => some (some hm)

/-- `HRService.create_excuse`: duplicate check first, then reason presence,
excuse-type validity and time parsing, then the row insertion (the stored
reason is stripped). -/
def create_excuse (db : DB) (employee_id : String) (excuse_date : Int)
    (excuse_type : String) (start_time end_time : Option String)
    (reason : String) : ExcuseResult × DB :=
  match check_duplicate_excuse db employee_id excuse_date excuse_type with
  | some (eid, ereason, estatus) => (.duplicate_excuse eid ereason estatus, db)
  | none =>
    if pyStrip reason.toList = [] then (.reason_required, db)
    else
      match excuseTypeOfString (String.mk (pyLower excuse_type.toList)) with
      | none => (.invalid_excuse_type, db)
      | some et =>
        match parseOptTime start_time with
        | none => (.invalid_start_time, db)
        | some st =>
          match parseOptTime end_time with
          | none => (.invalid_end_time, db)
          | some etime =>
            let row : Excuse :=
              ⟨db.next_excuse_id, employee_id, excuse_date, et, st, etime,
               String.mk (pyStrip reason.toList), .pending⟩
            (.success db.next_excuse_id,
             { db with excuses := db.excuses ++ [row],
                       next_excuse_id := db.next_excuse_id + 1 })

/-- Python truthiness of an optional string: present and nonempty. -/
def pyTruthy : Option String → Bool
  | none => false
  | some s => s != ""

/-- The excuse-type normalization at the top of the tool-layer
`create_excuse`: lower-case, strip, spaces to underscores, then substring
routing to the two canonical values, falling back to the original input. -/
def toolExcuseType (excuse_type : String) : String :=
  let etl := (pyStrip (pyLower excuse_type.toList)).map
    (fun c => if c == ' ' then '_' else c)
  if hasSubL "late".toList etl || hasSubL "arrival".toList etl ||
      hasSubL "تأخر".toList etl then "late_arrival"
  else if hasSubL "early".toList etl || hasSubL "departure".toList etl ||
      hasSubL "مغادرة".toList etl then "early_departure"
  else excuse_type

/-- The `echo_patterns` list of the tool-layer `create_excuse`: phrases that
merely restate the triggering condition. -/
def echo_patterns : List String :=
  ["i was late", "was late today", "late today", "came late", "arrived late",
   "i am late", "im late", "i\x27m late",
   "تأخرت", "كنت متأخر", "جيت متأخر", "وصلت متأخر"]

/-- The `generic_reasons` list of the tool-layer `create_excuse`: placeholder
reasons rejected on exact match. -/
def generic_reasons : List String :=
  ["late", "late arrival", "delayed", "coming late", "traffic", "unspecified",
   "reason", "excuse", "personal", "personal reason", "personal reasons",
   "sick", "not feeling well", "unwell",
   "تأخر", "تأخير", "زحمة", "بدون سبب", "سبب", "متاخر", "شخصي", "ظروف",
   "نسيت", "forgot", "forgot to submit", "نسيت اقدم", "نسيت اقدم طلب",
   "i forgot", "كان متأخر", "مريض", "تعبان"]

/-- Python `len(s.split())`: number of maximal nonempty whitespace-separated
words. -/
def splitWsL : List Char → List (List Char)
  | [] => [[]]
  | c :: cs =>
    match splitWsL cs with
    | [] => [[]]
    | h :: t => if c.isWhitespace then [] :: h :: t else (c :: h) :: t

/-- Word count of a Python `str.split()` call. -/
def pyWordCount (l : List Char) : Nat :=
  ((splitWsL l).filter (fun w => !w.isEmpty)).length

/-- Result of the tool-layer `create_excuse` (tools.py); the date-format
error is not modelled because dates enter the model already parsed. -/
inductive ExcuseToolResult where
  | missing_arrival_time
  | missing_departure_time
  | missing_reason
  | not_a_reason
  | generic_reason
  | reason_too_short
  | suspicious_time
  | service (r : ExcuseResult)
deriving DecidableEq, Repr

/-- Validations 2 and 3 of the tool-layer `create_excuse`: missing reason,
echo-pattern substring match, exact generic-placeholder match, then minimum
character count (10) and word count (3).  Returns the first rejection, or
`none` when the reason passes. -/
def reasonRejection (reason : String) : Option ExcuseToolResult :=
  if pyStrip reason.toList = [] then some .missing_reason
  else
    let reason_lower := pyStrip (pyLower reason.toList)
    if echo_patterns.any (fun p => hasSubL p.toList reason_lower) then
      some .not_a_reason
    else if generic_reasons.any (fun g => reason_lower == g.toList) then
      some .generic_reason
    else if (pyStrip reason.toList).length < 10 ∨ pyWordCount reason.toList < 3 then
      some .reason_too_short
    else none

/-- The ad-hoc hour extraction in the suspicious-time check of the tool
layer: `int(time_val.split(':')[0].replace('.', ':').split(':')[0])`, with
the surrounding `try`/`except` modelled by `Option`. -/
def crudeHour (time_val : String) : Option Int :=
  let p1 := (time_val.toList).takeWhile (fun c => c != ':')
  let p2 := p1.map (fun c => if c == '.' then ':' else c)
  let p3 := p2.takeWhile (fun c => c != ':')
  pyIntOfChars p3

/-- The tool-layer `create_excuse` (tools.py): type normalization, mandatory
time and reason checks, reason-quality gate, the suspicious-time heuristic on
the type-relevant time string, then delegation to the service. -/
def tool_create_excuse (db : DB) (employee_id : String) (excuse_date : Int)
    (excuse_type : String) (reason : String)
    (start_time end_time : Option String) : ExcuseToolResult × DB :=
  let ety := toolExcuseType excuse_type
  if ety = "late_arrival" ∧ pyTruthy start_time = false then
    (.missing_arrival_time, db)
  else if ety = "early_departure" ∧ pyTruthy end_time = false then
    (.missing_departure_time, db)
  else
    match reasonRejection reason with
    | some r => (r, db)
    | none =>
      let time_val := if ety = "late_arrival" then start_time else end_time
      let suspicious : Bool :=
        match time_val with
        | none => false
        | some tv =>
          if tv = "" then false
          else
            match crudeHour tv with
            | some h => decide (0 ≤ h ∧ h < 6)
            | none => false
      if suspicious then (.suspicious_time, db)
      else
        let r := create_excuse db employee_id excuse_date ety start_time
          end_time reason
        (.service r.1, r.2)

/-- Argument record of one `submit_leave_request` call, for stating
properties of call sequences. -/
structure SubmitArgs where
  employee_id : String
  leave_type : String
  start_date : Int
  end_date : Int
  reason : Option String
  confirm_conflicts : Bool
deriving DecidableEq, Repr

/-- The state after one `submit_leave_request` call. -/
def applySubmit (db : DB) (a : SubmitArgs) : DB :=
  (submit_leave_request db a.employee_id a.leave_type a.start_date a.end_date
    a.reason a.confirm_conflicts).2

/-- Every balance row is non-negative. -/
def nonNegBalances (db : DB) : Prop := ∀ b ∈ db.balances, 0 ≤ b.balance_days

/-- Store with two Engineering employees, one of whom has a pending leave
over days 2..4, used for conflict-related witnesses. -/
def dbTeam : DB :=
  ⟨[⟨"EMP001", "Engineering"⟩, ⟨"EMP002", "Engineering"⟩],
   [⟨"EMP001", .annual, 10⟩],
   [⟨1, "EMP002", .annual, 2, 4, none, .pending⟩], [], 2, 1⟩

/-- At most one excuse row per (employee, date, type). -/
def uniqueExcuses (db : DB) : Prop :=
  db.excuses.Pairwise (fun a b =>
    ¬(a.employee_id = b.employee_id ∧ a.date = b.date ∧
      a.excuse_type = b.excuse_type))

/-- Store holding one existing late-arrival excuse for employee EMP005 on
day 20, used for duplicate-excuse witnesses. -/
def dbExcuse : DB :=
  ⟨[], [], [],
   [⟨7, "EMP005", 20, .late_arrival, some (8, 30), none,
     "first reason given here", .pending⟩], 1, 8⟩

/-- The empty store. -/
def dbEmpty : DB := ⟨[], [], [], [], 1, 1⟩

/-- The available amount reported by the insufficiency error: the first
matching balance row's days, or 0 when no row exists. -/
def availableBalance (db : DB) (employee_id : String) (lt : LeaveType) : Int :=
  match findBalance db employee_id lt with
  | none => 0
  | some b => b.balance_days

/-- Store with a single employee EMP001 holding 10 annual days. -/
def dbA : DB :=
  ⟨[⟨"EMP001", "Engineering"⟩], [⟨"EMP001", .annual, 10⟩], [], [], 1, 1⟩

/-- The store `dbA` after one committed 3-day annual request. -/
def dbACommitted : DB :=
  ⟨[⟨"EMP001", "Engineering"⟩], [⟨"EMP001", .annual, 7⟩],
   [⟨1, "EMP001", .annual, 1, 3, none, .pending⟩], [], 2, 1⟩

/-- Store with employee EMP004 holding only 2 annual days. -/
def dbIns : DB :=
  ⟨[⟨"EMP004", "Sales"⟩], [⟨"EMP004", .annual, 2⟩], [], [], 1, 1⟩

/-!
Helper lemmas.
-/

theorem finishTime_bounds {is_pm is_am : Bool} {hm : Int × Int} {h m : Int}
    (hp : finishTime is_pm is_am hm = some (h, m)) :
    0 ≤ h ∧ h ≤ 23 ∧ 0 ≤ m ∧ m ≤ 59 := by
  unfold finishTime at hp
  dsimp only [] at hp
  split at hp
  · rename_i hcond
    simp only [Option.some.injEq, Prod.mk.injEq] at hp
    obtain ⟨rfl, rfl⟩ := hp
    exact hcond
  · exact absurd hp (by simp)

/-!
Theorems for the claims.
-/

/-- C6: `parse_time` maps "8:17", "08:17" and "8.17" to 08:17, "3pm" to
15:00 and "8am" to 08:00; for 12-hour inputs PM adds 12 unless the hour is
already at least 12, and 12 AM maps to hour 0; and every parse whose
converted hour falls outside 0..23 or whose minute falls outside 0..59
returns no time. -/
theorem parse_time_spec :
    parse_time "8:17" = some (8, 17) ∧
    parse_time "08:17" = some (8, 17) ∧
    parse_time "8.17" = some (8, 17) ∧
    parse_time "3pm" = some (15, 0) ∧
    parse_time "8am" = some (8, 0) ∧
    (∀ (is_am : Bool) (h : Int), h < 12 → convert12 true is_am h = h + 12) ∧
    (∀ h : Int, 12 ≤ h → convert12 true false h = h) ∧
    convert12 false true 12 = 0 ∧
    (∀ (s : String) (h m : Int), parse_time s = some (h, m) →
      0 ≤ h ∧ h ≤ 23 ∧ 0 ≤ m ∧ m ≤ 59) := by
  refine ⟨by decide, by decide, by decide, by decide, by decide, ?_, ?_, by decide, ?_⟩
  · intro is_am h hlt
    unfold convert12
    rw [if_pos ⟨rfl, hlt⟩]
  · intro h hge
    unfold convert12
    rw [if_neg (by simp; omega), if_neg (by simp)]
  · intro s h m hp
    unfold parse_time at hp
    split at hp
    · exact absurd hp (by simp)
    · dsimp only [] at hp
      split at hp
      · exact absurd hp (by simp)
      · exact finishTime_bounds hp

/-- Witness for C6: the hypothesis-bearing components applied at concrete
inputs. -/
theorem parse_time_spec_witness :
    convert12 true false 3 = 3 + 12 ∧ convert12 true false 13 = 13 ∧
    (0 ≤ (8 : Int) ∧ (8 : Int) ≤ 23 ∧ 0 ≤ (17 : Int) ∧ (17 : Int) ≤ 59) :=
  ⟨parse_time_spec.2.2.2.2.2.1 false 3 (by decide),
   parse_time_spec.2.2.2.2.2.2.1 13 (by decide),
   parse_time_spec.2.2.2.2.2.2.2.2 "8:17" 8 17 (by decide)⟩

/-- C3: the preview phase of the tool-layer two-phase workflow (invoked with
`user_confirmed` not lower-casing to "yes") leaves the persisted store
unchanged, whatever the preview reports. -/
theorem preview_no_mutation (today : Int) (db : DB)
    (employee_id leave_type : String) (start_date end_date : Int)
    (reason : Option String) (confirm_conflicts : Bool) (user_confirmed : String)
    (h : String.mk (pyLower user_confirmed.toList) ≠ "yes") :
    (tool_submit_leave_request today db employee_id leave_type start_date
      end_date reason confirm_conflicts user_confirmed).2 = db := by
  unfold tool_submit_leave_request
  split_ifs <;> simp_all

/-- Witness for C3 at a concrete store and input. -/
theorem preview_no_mutation_witness :
    (tool_submit_leave_request 0
      ⟨[⟨"EMP001", "Engineering"⟩], [⟨"EMP001", .annual, 10⟩], [], [], 1, 1⟩
      "EMP001" "annual" 1 3 none false "no").2
      = ⟨[⟨"EMP001", "Engineering"⟩], [⟨"EMP001", .annual, 10⟩], [], [], 1, 1⟩ :=
  preview_no_mutation 0 _ "EMP001" "annual" 1 3 none false "no" (by decide)

/-- C10: both phases of the tool-layer `submit_leave_request` reject a start
date strictly before today with an error and no mutation; the statement
quantifies over `user_confirmed`, so it covers the preview phase and the
commit phase alike. -/
theorem past_start_rejected (today : Int) (db : DB)
    (employee_id leave_type : String) (start_date end_date : Int)
    (reason : Option String) (confirm_conflicts : Bool) (user_confirmed : String)
    (h : start_date < today) :
    tool_submit_leave_request today db employee_id leave_type start_date
      end_date reason confirm_conflicts user_confirmed
      = (.past_date_error, db) := by
  unfold tool_submit_leave_request
  rw [if_pos h]

/-- Witness for C10 at a concrete store, in both phases. -/
theorem past_start_rejected_witness :
    tool_submit_leave_request 5
      ⟨[⟨"EMP001", "Engineering"⟩], [⟨"EMP001", .annual, 10⟩], [], [], 1, 1⟩
      "EMP001" "annual" 1 3 none false "yes"
      = (.past_date_error,
         ⟨[⟨"EMP001", "Engineering"⟩], [⟨"EMP001", .annual, 10⟩], [], [], 1, 1⟩) ∧
    tool_submit_leave_request 5
      ⟨[⟨"EMP001", "Engineering"⟩], [⟨"EMP001", .annual, 10⟩], [], [], 1, 1⟩
      "EMP001" "annual" 1 3 none false "no"
      = (.past_date_error,
         ⟨[⟨"EMP001", "Engineering"⟩], [⟨"EMP001", .annual, 10⟩], [], [], 1, 1⟩) :=
  ⟨past_start_rejected 5 _ "EMP001" "annual" 1 3 none false "yes" (by decide),
   past_start_rejected 5 _ "EMP001" "annual" 1 3 none false "no" (by decide)⟩

theorem commitLeave_not_conflict (db : DB) (employee_id : String)
    (lt : LeaveType) (s e : Int) (reason : Option String) (q : Int)
    (cs : List Conflict) :
    (commitLeave db employee_id lt s e reason q).1 ≠ .team_conflict cs := by
  unfold commitLeave
  split
  · split
    · simp
    · split
      · simp
      · dsimp only []
        split
        · simp
        · simp
  · simp

/-- C5: membership in the team calendar is exactly department membership,
status pending or approved, and inclusive interval overlap
(`start <= query.end` and `end >= query.start`); and every conflict list the
leave workflow returns excludes the requesting employee's own rows. -/
theorem team_calendar_conflicts_spec :
    (∀ (db : DB) (department : String) (s e : Int) (c : Conflict),
      c ∈ get_team_calendar db department s e ↔
        ∃ l ∈ db.leave_requests, toConflict l = c ∧
          (∃ emp ∈ db.employees,
            emp.department = department ∧ emp.id = l.employee_id) ∧
          (l.status = .pending ∨ l.status = .approved) ∧
          l.start_date ≤ e ∧ s ≤ l.end_date) ∧
    (∀ (db : DB) (employee_id leave_type : String) (s e : Int)
      (reason : Option String) (cs : List Conflict) (db' : DB),
      submit_leave_request db employee_id leave_type s e reason false
        = (.team_conflict cs, db') →
      ∀ c ∈ cs, c.employee_id ≠ employee_id) := by
  constructor
  · intro db department s e c
    simp only [get_team_calendar, List.mem_map, List.mem_filter, Bool.and_eq_true,
      Bool.or_eq_true, beq_iff_eq, decide_eq_true_eq, List.contains, List.elem_iff]
    constructor
    · rintro ⟨l, ⟨hmem, ⟨⟨hdept, hstat⟩, hd1⟩, hd2⟩, rfl⟩
      obtain ⟨emp, ⟨hemem, hedept⟩, heid⟩ := hdept
      exact ⟨l, hmem, rfl, ⟨emp, hemem, hedept, heid⟩,
        (by cases hstat <;> simp_all), hd1, hd2⟩
    · rintro ⟨l, hmem, rfl, ⟨emp, hemem, hedept, heid⟩, hstat, hd1, hd2⟩
      exact ⟨l, ⟨hmem, ⟨⟨⟨emp, ⟨hemem, hedept⟩, heid⟩,
        (by cases hstat <;> simp_all)⟩, hd1⟩, hd2⟩, rfl⟩
  · intro db employee_id leave_type s e reason cs db' h c hc
    unfold submit_leave_request at h
    split at h
    · simp at h
    · split at h
      · simp at h
      · dsimp only [] at h
        split at h
        · rename_i r heq
          split at heq
          · split at heq
            · simp_all
            · split at heq <;> simp_all
          · simp_all
        · split at h
          · rename_i r heq
            split at heq
            · split at heq
              · simp_all
              · split at heq
                · rename_i hne
                  simp only [Option.some.injEq] at heq
                  subst heq
                  simp only [Prod.mk.injEq, SubmitResult.team_conflict.injEq] at h
                  obtain ⟨rfl, -⟩ := h
                  have := List.mem_filter.mp hc
                  simpa [bne_iff_ne] using this.2
                · simp_all
            · simp_all
          · exact absurd (congrArg Prod.fst h)
              (by simpa using commitLeave_not_conflict db employee_id _ s e reason _ cs)


/-- Witness for C5: the calendar characterization and the self-exclusion
applied at a concrete store. -/
theorem team_calendar_conflicts_spec_witness :
    (⟨"EMP002", .annual, 2, 4, .pending⟩ : Conflict) ∈
      get_team_calendar dbTeam "Engineering" 1 3 ∧
    ("EMP002" : String) ≠ "EMP001" := by
  constructor
  · exact (team_calendar_conflicts_spec.1 dbTeam "Engineering" 1 3
      ⟨"EMP002", .annual, 2, 4, .pending⟩).mpr
      ⟨⟨1, "EMP002", .annual, 2, 4, none, .pending⟩, by decide, rfl,
       ⟨⟨"EMP002", "Engineering"⟩, by decide, rfl, rfl⟩, Or.inl rfl,
       by decide, by decide⟩
  · exact team_calendar_conflicts_spec.2 dbTeam "EMP001" "annual" 1 3 none
      [⟨"EMP002", .annual, 2, 4, .pending⟩] dbTeam (by decide)
      ⟨"EMP002", .annual, 2, 4, .pending⟩ (by decide)


/-- C9: a `create_excuse` call for a (employee, date, type) triple that
already has a row returns the duplicate error referencing the existing row's
identifier and status and creates no row; and the at-most-one-excuse
invariant is preserved by every sequential call. -/
theorem excuse_uniqueness_spec :
    (∀ (db : DB) (employee_id : String) (excuse_date : Int)
      (excuse_type : String) (start_time end_time : Option String)
      (reason : String) (ty : ExcuseType) (ex : Excuse),
      excuseTypeOfString (String.mk (pyLower excuse_type.toList)) = some ty →
      findExcuse db employee_id excuse_date ty = some ex →
      create_excuse db employee_id excuse_date excuse_type start_time end_time
        reason = (.duplicate_excuse ex.id ex.reason ex.status, db)) ∧
    (∀ (db : DB) (employee_id : String) (excuse_date : Int)
      (excuse_type : String) (start_time end_time : Option String)
      (reason : String),
      uniqueExcuses db →
      uniqueExcuses (create_excuse db employee_id excuse_date excuse_type
        start_time end_time reason).2) := by
  constructor
  · intro db employee_id excuse_date excuse_type st et reason ty ex hty hex
    simp only [create_excuse, check_duplicate_excuse, hty, hex]
  · intro db employee_id excuse_date excuse_type st et reason h
    unfold create_excuse
    split
    · exact h
    · rename_i hdup
      split
      · exact h
      · split
        · exact h
        · rename_i ty hty
          split
          · exact h
          · split
            · exact h
            · unfold check_duplicate_excuse at hdup
              rw [hty] at hdup
              dsimp only [] at hdup
              split at hdup
              · rename_i hfind
                unfold uniqueExcuses at h ⊢
                dsimp only []
                rw [List.pairwise_append]
                refine ⟨h, by simp, ?_⟩
                intro a ha b hb
                simp only [List.mem_singleton] at hb
                subst hb
                have hpred : ∀ x ∈ db.excuses, x.employee_id = employee_id →
                    x.date = excuse_date → ¬x.excuse_type = ty := by
                  simpa [findExcuse] using hfind
                intro hcon
                obtain ⟨h1, h2, h3⟩ := hcon
                exact hpred a ha h1 h2 h3
              · exact absurd hdup (by simp)


/-- Witness for C9: a second late-arrival excuse for the same day is refused
with a reference to row 7, and uniqueness is preserved. -/
theorem excuse_uniqueness_spec_witness :
    create_excuse dbExcuse "EMP005" 20 "late_arrival" (some "9:00") none
      "another detailed excuse reason here"
      = (.duplicate_excuse 7 "first reason given here" .pending, dbExcuse) ∧
    uniqueExcuses (create_excuse dbExcuse "EMP005" 20 "late_arrival"
      (some "9:00") none "another detailed excuse reason here").2 :=
  ⟨excuse_uniqueness_spec.1 dbExcuse "EMP005" 20 "late_arrival" (some "9:00")
    none "another detailed excuse reason here" .late_arrival
    ⟨7, "EMP005", 20, .late_arrival, some (8, 30), none,
     "first reason given here", .pending⟩ (by decide) (by decide),
   excuse_uniqueness_spec.2 dbExcuse "EMP005" 20 "late_arrival" (some "9:00")
    none "another detailed excuse reason here"
    (by simp [uniqueExcuses, dbExcuse])⟩

theorem reasonRejection_none_bounds {reason : String}
    (h : reasonRejection reason = none) :
    10 ≤ (pyStrip reason.toList).length ∧ 3 ≤ pyWordCount reason.toList := by
  unfold reasonRejection at h
  dsimp only [] at h
  split_ifs at h with h1 h2 h3 h4
  push_neg at h4
  omega

theorem reasonRejection_not_service {reason : String} {r : ExcuseToolResult}
    (h : reasonRejection reason = some r) : ∀ s, r ≠ .service s := by
  unfold reasonRejection at h
  dsimp only [] at h
  split_ifs at h <;> (obtain rfl := Option.some.inj h; simp)


/-- C8: the excuse reason gate rejects "traffic" (generic placeholder),
"I was late today" (echo pattern) and "ok"; rejects every reason shorter
than 10 characters or with fewer than 3 words, never creating an excuse in
any rejection; and accepts "stuck behind an overturned truck on the
highway". -/
theorem validate_reason_spec :
    (∀ (db : DB) (employee_id : String) (excuse_date : Int),
      tool_create_excuse db employee_id excuse_date "late_arrival" "traffic"
        (some "8:30") none = (.generic_reason, db)) ∧
    (∀ (db : DB) (employee_id : String) (excuse_date : Int),
      tool_create_excuse db employee_id excuse_date "late_arrival"
        "I was late today" (some "8:30") none = (.not_a_reason, db)) ∧
    (∀ (db : DB) (employee_id : String) (excuse_date : Int),
      tool_create_excuse db employee_id excuse_date "late_arrival" "ok"
        (some "8:30") none = (.reason_too_short, db)) ∧
    (∀ (db : DB) (employee_id : String) (excuse_date : Int)
      (excuse_type reason : String) (start_time end_time : Option String),
      (pyStrip reason.toList).length < 10 ∨ pyWordCount reason.toList < 3 →
      (tool_create_excuse db employee_id excuse_date excuse_type reason
        start_time end_time).2 = db ∧
      ∀ n, (tool_create_excuse db employee_id excuse_date excuse_type reason
        start_time end_time).1 ≠ .service (.success n)) ∧
    tool_create_excuse dbEmpty "EMP005" 20 "late_arrival"
      "stuck behind an overturned truck on the highway" (some "8:30") none
      = (.service (.success 1),
         { dbEmpty with
            excuses := [⟨1, "EMP005", 20, .late_arrival, some (8, 30), none,
              "stuck behind an overturned truck on the highway", .pending⟩],
            next_excuse_id := 2 }) := by
  refine ⟨fun db e d => rfl, fun db e d => rfl, fun db e d => rfl,
    ?_, by decide⟩
  intro db employee_id excuse_date excuse_type reason start_time end_time h
  unfold tool_create_excuse
  dsimp only []
  split_ifs <;>
    first
      | (refine ⟨rfl, ?_⟩; simp)
      | (cases hr : reasonRejection reason with
         | some r =>
             exact ⟨rfl, fun n => reasonRejection_not_service hr (.success n)⟩
         | none =>
             obtain ⟨hl, hw⟩ := reasonRejection_none_bounds hr
             omega)

/-- Witness for C8: the length and word-count gate applied at the reason
"ok". -/
theorem validate_reason_spec_witness :
    (tool_create_excuse dbEmpty "EMP001" 20 "late_arrival" "ok"
      (some "8:30") none).2 = dbEmpty ∧
    ∀ n, (tool_create_excuse dbEmpty "EMP001" 20 "late_arrival" "ok"
      (some "8:30") none).1 ≠ .service (.success n) :=
  validate_reason_spec.2.2.2.1 dbEmpty "EMP001" 20 "late_arrival" "ok"
    (some "8:30") none (by decide)

/-- Counterexample for C7: the time string "5am" denotes clock time 05:00,
whose parsed hour 5 lies in [0,6), yet the excuse submission succeeds and a
row holding 05:00 is created instead of the suspicious-time rejection,
because the check's crude leading-integer parse fails on "5am" and the
failure is swallowed. -/
theorem suspicious_time_counterexample :
    parse_time "5am" = some (5, 0) ∧
    (tool_create_excuse dbEmpty "EMP005" 20 "late_arrival"
      "heavy accident on the main highway this morning" (some "5am") none).1
      = .service (.success 1) ∧
    (tool_create_excuse dbEmpty "EMP005" 20 "late_arrival"
      "heavy accident on the main highway this morning" (some "5am") none).2.excuses
      = [⟨1, "EMP005", 20, .late_arrival, some (5, 0), none,
          "heavy accident on the main highway this morning", .pending⟩] := by
  decide

/-- C7 amended: the suspicious-time rejection fires exactly on the crude
leading-integer parse of the relevant time string (the text before the first
`:` after turning `.` into `:`; `start_time` for a late arrival, `end_time`
for an early departure): for a submission of either excuse type whose reason
passes validation and whose relevant time string has a crude hour in [0,6) —
including "0:45" — the result is the suspicious-time error and no state
change; strings whose crude parse fails (such as "5am") bypass the check. -/
theorem suspicious_time_spec (db : DB) (employee_id : String)
    (excuse_date : Int) (reason tv : String) (h : Int)
    (hreason : reasonRejection reason = none)
    (htv : tv ≠ "")
    (hcrude : crudeHour tv = some h) (h0 : 0 ≤ h) (h6 : h < 6) :
    tool_create_excuse db employee_id excuse_date "late_arrival" reason
      (some tv) none = (.suspicious_time, db) ∧
    ∀ start_time : Option String,
      tool_create_excuse db employee_id excuse_date "early_departure" reason
        start_time (some tv) = (.suspicious_time, db) := by
  constructor
  · unfold tool_create_excuse
    dsimp only []
    rw [show toolExcuseType "late_arrival" = "late_arrival" from rfl]
    rw [if_neg (fun hc => htv (by simpa [pyTruthy] using hc.2))]
    rw [if_neg (fun hc => absurd hc.1 (by decide))]
    rw [hreason]
    dsimp only []
    rw [if_pos rfl]
    dsimp only []
    rw [if_neg htv, hcrude]
    dsimp only []
    rw [if_pos (by simpa using And.intro h0 h6)]
  · intro start_time
    unfold tool_create_excuse
    dsimp only []
    rw [show toolExcuseType "early_departure" = "early_departure" from rfl]
    rw [if_neg (fun hc => absurd hc.1 (by decide))]
    rw [if_neg (fun hc => htv (by simpa [pyTruthy] using hc.2))]
    rw [hreason]
    dsimp only []
    rw [if_neg (show ¬("early_departure" : String) = "late_arrival" by decide)]
    dsimp only []
    rw [if_neg htv, hcrude]
    dsimp only []
    rw [if_pos (by simpa using And.intro h0 h6)]

/-- Witness for C7's amended theorem at the literal time "0:45", for both a
late arrival (the time is `start_time`) and an early departure (the time is
`end_time`). -/
theorem suspicious_time_spec_witness :
    tool_create_excuse dbEmpty "EMP005" 20 "late_arrival"
      "heavy traffic jam on the highway this morning" (some "0:45") none
      = (.suspicious_time, dbEmpty) ∧
    tool_create_excuse dbEmpty "EMP005" 20 "early_departure"
      "heavy traffic jam on the highway this morning" none (some "0:45")
      = (.suspicious_time, dbEmpty) :=
  ⟨(suspicious_time_spec dbEmpty "EMP005" 20
      "heavy traffic jam on the highway this morning" "0:45" 0
      (by decide) (by decide) (by decide) (by decide) (by decide)).1,
   (suspicious_time_spec dbEmpty "EMP005" 20
      "heavy traffic jam on the highway this morning" "0:45" 0
      (by decide) (by decide) (by decide) (by decide) (by decide)).2 none⟩


theorem findBalance_setFirst {l : List LeaveBalance} {employee_id : String}
    {lt : LeaveType} (v : Int) {b : LeaveBalance}
    (h : l.find? (fun x => x.employee_id == employee_id && x.leave_type == lt)
      = some b) :
    (setFirstBalance l employee_id lt v).find?
      (fun x => x.employee_id == employee_id && x.leave_type == lt)
      = some { b with balance_days := v } := by
  induction l with
  | nil => simp at h
  | cons x xs ih =>
    unfold setFirstBalance
    by_cases hx : (x.employee_id == employee_id && x.leave_type == lt) = true
    · rw [if_pos hx]
      simp only [List.find?, hx] at h
      obtain rfl := Option.some.inj h
      have hx2 : (({ x with balance_days := v } : LeaveBalance).employee_id
          == employee_id &&
          ({ x with balance_days := v } : LeaveBalance).leave_type == lt)
          = true := by simpa using hx
      simp only [List.find?, hx2]
    · rw [if_neg hx]
      have hxf : (x.employee_id == employee_id && x.leave_type == lt) = false :=
        by simpa using hx
      simp only [List.find?, hxf] at h ⊢
      exact ih h

theorem setFirstBalance_nonneg {l : List LeaveBalance} {employee_id : String}
    {lt : LeaveType} {v : Int} (hv : 0 ≤ v)
    (h : ∀ b ∈ l, 0 ≤ b.balance_days) :
    ∀ b ∈ setFirstBalance l employee_id lt v, 0 ≤ b.balance_days := by
  induction l with
  | nil => intro b hb; simp [setFirstBalance] at hb
  | cons x xs ih =>
    intro b hb
    unfold setFirstBalance at hb
    split_ifs at hb
    · rcases List.mem_cons.mp hb with rfl | hb
      · exact hv
      · exact h b (List.mem_cons_of_mem _ hb)
    · rcases List.mem_cons.mp hb with rfl | hb
      · exact h b (List.mem_cons_self _ _)
      · exact ih (fun y hy => h y (List.mem_cons_of_mem _ hy)) b hb

theorem commitLeave_not_success_eq {db db' : DB} {employee_id : String}
    {lt : LeaveType} {s e : Int} {reason : Option String} {q : Int}
    {r : SubmitResult}
    (h : commitLeave db employee_id lt s e reason q = (r, db'))
    (hns : ∀ i d info, r ≠ .success i d info) : db' = db := by
  unfold commitLeave at h
  split at h
  · split at h
    · injection h with h1 h2; exact h2.symm
    · split at h
      · injection h with h1 h2; exact h2.symm
      · dsimp only [] at h
        split at h
        · injection h with h1 h2; exact h2.symm
        · injection h with h1 h2; exact absurd h1.symm (hns _ _ _)
  · injection h with h1 h2; exact absurd h1.symm (hns _ _ _)

theorem commitLeave_success_effects {db db' : DB} {employee_id : String}
    {lt : LeaveType} {s e : Int} {reason : Option String} {q : Int}
    {i : Nat} {d : Int} {info : Option (Int × Int)}
    (h : commitLeave db employee_id lt s e reason q
      = (.success i d info, db')) :
    i = db.next_leave_id ∧ d = q ∧
    db'.leave_requests = db.leave_requests ++
      [⟨db.next_leave_id, employee_id, lt, s, e, reason, .pending⟩] ∧
    db'.employees = db.employees ∧ db'.excuses = db.excuses ∧
    db'.next_leave_id = db.next_leave_id + 1 ∧
    (lt = .unpaid → info = none ∧ db'.balances = db.balances) ∧
    (lt ≠ .unpaid → ∃ b, findBalance db employee_id lt = some b ∧
      q ≤ b.balance_days ∧ info = some (b.balance_days, b.balance_days - q) ∧
      db'.balances
        = setFirstBalance db.balances employee_id lt (b.balance_days - q)) := by
  unfold commitLeave at h
  split at h
  · rename_i hlt
    split at h
    · injection h with h1 h2; exact SubmitResult.noConfusion h1
    · rename_i b hfb
      split at h
      · injection h with h1 h2; exact SubmitResult.noConfusion h1
      · rename_i hble
        dsimp only [] at h
        split at h
        · injection h with h1 h2; exact SubmitResult.noConfusion h1
        · rename_i hrem
          injection h with h1 h2
          injection h1 with e1 e2 e3
          subst e1; subst e2; subst e3; subst h2
          exact ⟨rfl, rfl, rfl, rfl, rfl, rfl, fun hu => absurd hu hlt,
            fun _ => ⟨b, hfb, by omega, rfl, rfl⟩⟩
  · rename_i hlt
    push_neg at hlt
    injection h with h1 h2
    injection h1 with e1 e2 e3
    subst e1; subst e2; subst e3; subst h2
    exact ⟨rfl, rfl, rfl, rfl, rfl, rfl, fun _ => ⟨rfl, rfl⟩,
      fun hn => absurd hlt hn⟩

theorem commitLeave_success_exists (db : DB) (employee_id : String)
    (lt : LeaveType) (s e : Int) (reason : Option String) (q : Int)
    (hbal : lt ≠ .unpaid → ∃ b, findBalance db employee_id lt = some b ∧
      q ≤ b.balance_days) :
    ∃ info balances',
      commitLeave db employee_id lt s e reason q
        = (.success db.next_leave_id q info,
           { db with
              balances := balances',
              leave_requests := db.leave_requests ++
                [⟨db.next_leave_id, employee_id, lt, s, e, reason, .pending⟩],
              next_leave_id := db.next_leave_id + 1 }) := by
  by_cases hu : lt = LeaveType.unpaid
  · refine ⟨none, db.balances, ?_⟩
    unfold commitLeave
    rw [if_neg (by simp [hu])]
  · obtain ⟨b, hb, hle⟩ := hbal hu
    refine ⟨some (b.balance_days, b.balance_days - q),
      setFirstBalance db.balances employee_id lt (b.balance_days - q), ?_⟩
    unfold commitLeave
    rw [if_pos hu, hb]
    dsimp only []
    rw [if_neg (by omega), if_neg (by omega)]

theorem submit_not_success_eq {db db' : DB} {employee_id leave_type : String}
    {s e : Int} {reason : Option String} {cc : Bool} {r : SubmitResult}
    (h : submit_leave_request db employee_id leave_type s e reason cc
      = (r, db'))
    (hns : ∀ i d info, r ≠ .success i d info) : db' = db := by
  unfold submit_leave_request at h
  split at h
  · injection h with h1 h2; exact h2.symm
  · split at h
    · injection h with h1 h2; exact h2.symm
    · dsimp only [] at h
      split at h
      · injection h with h1 h2; exact h2.symm
      · split at h
        · injection h with h1 h2; exact h2.symm
        · exact commitLeave_not_success_eq h hns

theorem submit_success_commit {db db' : DB} {employee_id leave_type : String}
    {s e : Int} {reason : Option String} {cc : Bool} {lt : LeaveType}
    {i : Nat} {d : Int} {info : Option (Int × Int)}
    (hlt : leaveTypeOfString (normalizeLeaveType leave_type) = some lt)
    (h : submit_leave_request db employee_id leave_type s e reason cc
      = (.success i d info, db')) :
    commitLeave db employee_id lt s e reason (e - s + 1)
      = (.success i d info, db') := by
  unfold submit_leave_request at h
  rw [hlt] at h
  dsimp only [] at h
  split at h
  · injection h with h1 h2; exact SubmitResult.noConfusion h1
  · split at h
    · rename_i r heq
      injection h with h1 h2
      subst h1
      split at heq
      · split at heq
        · simp at heq
        · split at heq <;> simp at heq
      · simp at heq
    · split at h
      · rename_i r heq
        injection h with h1 h2
        subst h1
        split at heq
        · split at heq
          · simp at heq
          · split at heq <;> simp at heq
        · simp at heq
      · exact h

theorem submit_confirm_commits (db : DB) (employee_id leave_type : String)
    (s e : Int) (reason : Option String) (lt : LeaveType)
    (hlt : leaveTypeOfString (normalizeLeaveType leave_type) = some lt)
    (hse : s ≤ e)
    (hbal : lt ≠ .unpaid → ∃ b, findBalance db employee_id lt = some b ∧
      e - s + 1 ≤ b.balance_days) :
    submit_leave_request db employee_id leave_type s e reason true
      = commitLeave db employee_id lt s e reason (e - s + 1) := by
  unfold submit_leave_request
  rw [hlt]
  dsimp only []
  rw [if_neg (show ¬ e < s by omega)]
  by_cases hu : lt = LeaveType.unpaid
  · rw [if_neg (show ¬ lt ≠ LeaveType.unpaid by simp [hu])]
    dsimp only []
    rw [if_neg (show ¬¬(true = true) by decide)]
  · obtain ⟨b, hb, hle⟩ := hbal hu
    rw [if_pos hu, hb]
    dsimp only []
    rw [if_neg (show ¬ b.balance_days < e - s + 1 by omega)]
    dsimp only []
    rw [if_neg (show ¬¬(true = true) by decide)]

theorem submit_conflict_warning (db : DB) (employee_id leave_type : String)
    (s e : Int) (reason : Option String) (lt : LeaveType) (emp : Employee)
    (hlt : leaveTypeOfString (normalizeLeaveType leave_type) = some lt)
    (hse : s ≤ e)
    (hbal : lt ≠ .unpaid → ∃ b, findBalance db employee_id lt = some b ∧
      e - s + 1 ≤ b.balance_days)
    (hemp : findEmployee db employee_id = some emp)
    (hne : (get_team_calendar db emp.department s e).filter
      (fun c => c.employee_id != employee_id) ≠ []) :
    submit_leave_request db employee_id leave_type s e reason false
      = (.team_conflict ((get_team_calendar db emp.department s e).filter
          (fun c => c.employee_id != employee_id)), db) := by
  unfold submit_leave_request
  rw [hlt]
  dsimp only []
  rw [if_neg (show ¬ e < s by omega)]
  by_cases hu : lt = LeaveType.unpaid
  · rw [if_neg (show ¬ lt ≠ LeaveType.unpaid by simp [hu])]
    dsimp only []
    rw [if_pos (show ¬(false = true) by decide), hemp]
    dsimp only []
    rw [if_pos hne]
  · obtain ⟨b, hb, hle⟩ := hbal hu
    rw [if_pos hu, hb]
    dsimp only []
    rw [if_neg (show ¬ b.balance_days < e - s + 1 by omega)]
    dsimp only []
    rw [if_pos (show ¬(false = true) by decide), hemp]
    dsimp only []
    rw [if_pos hne]

theorem submit_balances_shape (db : DB) (employee_id leave_type : String)
    (s e : Int) (reason : Option String) (cc : Bool) :
    (submit_leave_request db employee_id leave_type s e reason cc).2.balances
      = db.balances ∨
    ∃ lt v, 0 ≤ v ∧
      (submit_leave_request db employee_id leave_type s e reason cc).2.balances
        = setFirstBalance db.balances employee_id lt v := by
  unfold submit_leave_request
  split
  · exact Or.inl rfl
  · rename_i lt hlt
    split
    · exact Or.inl rfl
    · dsimp only []
      split
      · exact Or.inl rfl
      · split
        · exact Or.inl rfl
        · unfold commitLeave
          split
          · split
            · exact Or.inl rfl
            · rename_i b hfb
              split
              · exact Or.inl rfl
              · dsimp only []
                split
                · exact Or.inl rfl
                · rename_i hrem
                  exact Or.inr ⟨lt, b.balance_days - (e - s + 1),
                    by omega, rfl⟩
          · exact Or.inl rfl

theorem submit_preserves_nonneg (db : DB) (a : SubmitArgs)
    (h : nonNegBalances db) : nonNegBalances (applySubmit db a) := by
  unfold applySubmit nonNegBalances
  rcases submit_balances_shape db a.employee_id a.leave_type a.start_date
    a.end_date a.reason a.confirm_conflicts with hc | ⟨lt, v, hv, hc⟩
  · rw [hc]; exact h
  · rw [hc]; exact setFirstBalance_nonneg hv h

theorem submit_fold_nonneg (ops : List SubmitArgs) (db : DB)
    (h : nonNegBalances db) : nonNegBalances (ops.foldl applySubmit db) := by
  induction ops generalizing db with
  | nil => exact h
  | cons a rest ih => exact ih _ (submit_preserves_nonneg db a h)

/-- C1: against one (employee, leave type) balance account, a request for
more days than the available balance returns the insufficiency error
carrying the available amount with no mutation; a successful commit deducts
exactly the requested days and appends exactly one pending row; any
non-success outcome leaves the store untouched (both effects happen or
neither does); and non-negativity of all balances is preserved by every
call and every call sequence. -/
theorem balance_ledger_spec :
    (∀ (db : DB) (employee_id leave_type : String) (s e : Int)
      (reason : Option String) (cc : Bool) (lt : LeaveType),
      leaveTypeOfString (normalizeLeaveType leave_type) = some lt →
      lt ≠ .unpaid →
      0 ≤ availableBalance db employee_id lt →
      availableBalance db employee_id lt < e - s + 1 →
      submit_leave_request db employee_id leave_type s e reason cc
        = (.insufficient_balance (availableBalance db employee_id lt)
            (e - s + 1), db)) ∧
    (∀ (db db' : DB) (employee_id leave_type : String) (s e : Int)
      (reason : Option String) (cc : Bool) (lt : LeaveType) (i : Nat)
      (d : Int) (info : Option (Int × Int)),
      leaveTypeOfString (normalizeLeaveType leave_type) = some lt →
      submit_leave_request db employee_id leave_type s e reason cc
        = (.success i d info, db') →
      d = e - s + 1 ∧
      db'.leave_requests = db.leave_requests ++
        [⟨db.next_leave_id, employee_id, lt, s, e, reason, .pending⟩] ∧
      (lt = .unpaid → db'.balances = db.balances) ∧
      (lt ≠ .unpaid →
        availableBalance db' employee_id lt
          = availableBalance db employee_id lt - (e - s + 1) ∧
        e - s + 1 ≤ availableBalance db employee_id lt)) ∧
    (∀ (db db' : DB) (employee_id leave_type : String) (s e : Int)
      (reason : Option String) (cc : Bool) (r : SubmitResult),
      submit_leave_request db employee_id leave_type s e reason cc
        = (r, db') →
      (∀ i d info, r ≠ .success i d info) → db' = db) ∧
    (∀ (db : DB) (a : SubmitArgs),
      nonNegBalances db → nonNegBalances (applySubmit db a)) ∧
    (∀ (ops : List SubmitArgs) (db : DB),
      nonNegBalances db → nonNegBalances (ops.foldl applySubmit db)) := by
  refine ⟨?_, ?_, ?_, submit_preserves_nonneg, submit_fold_nonneg⟩
  · intro db employee_id leave_type s e reason cc lt hlt hnup hge hlt2
    unfold submit_leave_request
    rw [hlt]
    dsimp only []
    rw [if_neg (show ¬ e < s by omega)]
    rw [if_pos hnup]
    cases hfb : findBalance db employee_id lt with
    | none =>
      have hav : availableBalance db employee_id lt = 0 := by
        simp [availableBalance, hfb]
      dsimp only []
      rw [hav]
    | some b =>
      have hav : availableBalance db employee_id lt = b.balance_days := by
        simp [availableBalance, hfb]
      rw [hav] at hlt2
      dsimp only []
      rw [if_pos hlt2]
      dsimp only []
      rw [hav]
  · intro db db' employee_id leave_type s e reason cc lt i d info hlt h
    have hcl := submit_success_commit hlt h
    obtain ⟨hi, hd, hreq, hemp', hexc, hnext, hunp, hnup⟩ :=
      commitLeave_success_effects hcl
    refine ⟨hd, hreq, fun hu => (hunp hu).2, fun hn => ?_⟩
    obtain ⟨b, hfb, hle, hinfo, hbal'⟩ := hnup hn
    have hfind' : findBalance db' employee_id lt
        = some { b with balance_days := b.balance_days - (e - s + 1) } := by
      unfold findBalance
      rw [hbal']
      exact findBalance_setFirst _ (by simpa [findBalance] using hfb)
    constructor
    · simp [availableBalance, hfind', hfb]
    · simpa [availableBalance, hfb] using hle
  · intro db db' employee_id leave_type s e reason cc r h hns
    exact submit_not_success_eq h hns

/-- Witness for C1: the insufficiency branch at a 5-day request against a
2-day balance, the success effects at a committed 3-day request, the
no-mutation branch, and the non-negativity preservation, all at concrete
stores. -/
theorem balance_ledger_spec_witness :
    submit_leave_request dbIns "EMP004" "annual" 1 5 none false
      = (.insufficient_balance (availableBalance dbIns "EMP004" .annual)
          (5 - 1 + 1), dbIns) ∧
    ((3 : Int) = 3 - 1 + 1 ∧
      dbACommitted.leave_requests = dbA.leave_requests ++
        [⟨dbA.next_leave_id, "EMP001", .annual, 1, 3, none, .pending⟩] ∧
      (LeaveType.annual = .unpaid → dbACommitted.balances = dbA.balances) ∧
      (LeaveType.annual ≠ .unpaid →
        availableBalance dbACommitted "EMP001" .annual
          = availableBalance dbA "EMP001" .annual - (3 - 1 + 1) ∧
        3 - 1 + 1 ≤ availableBalance dbA "EMP001" .annual)) ∧
    dbIns = dbIns ∧
    nonNegBalances (applySubmit dbA ⟨"EMP001", "annual", 1, 3, none, false⟩) ∧
    nonNegBalances
      ([⟨"EMP001", "annual", 1, 3, none, false⟩].foldl applySubmit dbA) :=
  ⟨balance_ledger_spec.1 dbIns "EMP004" "annual" 1 5 none false .annual
    (by decide) (by decide) (by decide) (by decide),
   balance_ledger_spec.2.1 dbA dbACommitted "EMP001" "annual" 1 3 none false
    .annual 1 3 (some (10, 7)) (by decide) (by decide),
   balance_ledger_spec.2.2.1 dbIns dbIns "EMP004" "annual" 1 5 none false
    (.insufficient_balance 2 5) (by decide)
    (fun i d info hc => SubmitResult.noConfusion hc),
   balance_ledger_spec.2.2.2.1 dbA ⟨"EMP001", "annual", 1, 3, none, false⟩
    (by intro b hb; rcases List.mem_singleton.mp hb with rfl; decide),
   balance_ledger_spec.2.2.2.2 [⟨"EMP001", "annual", 1, 3, none, false⟩] dbA
    (by intro b hb; rcases List.mem_singleton.mp hb with rfl; decide)⟩

/-- C2: with another department member holding a pending or approved
overlapping leave, a commit call with `confirm_conflicts = false` returns the
team-conflict warning and changes nothing, even though `user_confirmed` is
"yes"; the same call with `confirm_conflicts = true` proceeds to commit and
creates the pending row. -/
theorem conflict_double_gate (today : Int) (db : DB)
    (employee_id leave_type : String) (s e : Int) (reason : Option String)
    (lt : LeaveType) (emp : Employee)
    (hlt : leaveTypeOfString (normalizeLeaveType leave_type) = some lt)
    (hd1 : today ≤ s) (hd2 : s ≤ e)
    (hbal : lt ≠ .unpaid → ∃ b, findBalance db employee_id lt = some b ∧
      e - s + 1 ≤ b.balance_days)
    (hemp : findEmployee db employee_id = some emp)
    (hne : (get_team_calendar db emp.department s e).filter
      (fun c => c.employee_id != employee_id) ≠ []) :
    tool_submit_leave_request today db employee_id leave_type s e reason
      false "yes"
      = (.service (.team_conflict ((get_team_calendar db emp.department s e).filter
          (fun c => c.employee_id != employee_id))), db) ∧
    ∃ info db',
      tool_submit_leave_request today db employee_id leave_type s e reason
        true "yes"
        = (.service (.success db.next_leave_id (e - s + 1) info), db') ∧
      db'.leave_requests = db.leave_requests ++
        [⟨db.next_leave_id, employee_id, lt, s, e, reason, .pending⟩] := by
  constructor
  · unfold tool_submit_leave_request
    rw [if_neg (show ¬ s < today by omega),
      if_neg (show ¬ e < s by omega)]
    dsimp only []
    rw [if_neg (show ¬ String.mk (pyLower "yes".toList) ≠ "yes" by decide)]
    rw [submit_conflict_warning db employee_id leave_type s e reason lt emp
      hlt hd2 hbal hemp hne]
  · obtain ⟨info, balances', hcl⟩ :=
      commitLeave_success_exists db employee_id lt s e reason (e - s + 1) hbal
    refine ⟨info,
      { db with
         balances := balances',
         leave_requests := db.leave_requests ++
           [⟨db.next_leave_id, employee_id, lt, s, e, reason, .pending⟩],
         next_leave_id := db.next_leave_id + 1 }, ?_, ?_⟩
    · unfold tool_submit_leave_request
      rw [if_neg (show ¬ s < today by omega),
        if_neg (show ¬ e < s by omega)]
      dsimp only []
      rw [if_neg (show ¬ String.mk (pyLower "yes".toList) ≠ "yes" by decide)]
      rw [submit_confirm_commits db employee_id leave_type s e reason lt
        hlt hd2 hbal, hcl]
    · rfl

/-- Witness for C2 at the concrete team store `dbTeam`. -/
theorem conflict_double_gate_witness :
    tool_submit_leave_request 0 dbTeam "EMP001" "annual" 1 3 none
      false "yes"
      = (.service (.team_conflict
          ((get_team_calendar dbTeam "Engineering" 1 3).filter
            (fun c => c.employee_id != "EMP001"))), dbTeam) ∧
    ∃ info db',
      tool_submit_leave_request 0 dbTeam "EMP001" "annual" 1 3 none
        true "yes"
        = (.service (.success dbTeam.next_leave_id (3 - 1 + 1) info), db') ∧
      db'.leave_requests = dbTeam.leave_requests ++
        [⟨dbTeam.next_leave_id, "EMP001", .annual, 1, 3, none, .pending⟩] :=
  conflict_double_gate 0 dbTeam "EMP001" "annual" 1 3 none .annual
    ⟨"EMP001", "Engineering"⟩ (by decide) (by decide) (by decide)
    (fun _ => ⟨⟨"EMP001", .annual, 10⟩, by decide, by decide⟩)
    (by decide) (by decide)

/-- Counterexample for C4: in a store with one employee holding 10 annual
days, committing the identical 3-day request twice succeeds twice, deducts
twice (10 to 7 to 4) and leaves two pending rows, so the second commit does
not return the original result unchanged. -/
theorem commit_idempotence_counterexample :
    (submit_leave_request dbA "EMP001" "annual" 1 3 none false).1
      = .success 1 3 (some (10, 7)) ∧
    (submit_leave_request
        (submit_leave_request dbA "EMP001" "annual" 1 3 none false).2
        "EMP001" "annual" 1 3 none false).1
      = .success 2 3 (some (7, 4)) ∧
    findBalance (submit_leave_request
        (submit_leave_request dbA "EMP001" "annual" 1 3 none false).2
        "EMP001" "annual" 1 3 none false).2 "EMP001" .annual
      = some ⟨"EMP001", .annual, 4⟩ ∧
    (submit_leave_request
        (submit_leave_request dbA "EMP001" "annual" 1 3 none false).2
        "EMP001" "annual" 1 3 none false).2.leave_requests.length = 2 := by
  decide

/-- C4 amended: the service layer enforces no idempotence for leave
requests: re-invoking the commit with the same already-committed parameters
(sufficient balance assumed) succeeds again, deducts the balance a second
time and appends a second pending row. -/
theorem commit_not_idempotent (db : DB) (employee_id leave_type : String)
    (s e : Int) (reason : Option String) (lt : LeaveType) (b : LeaveBalance)
    (hlt : leaveTypeOfString (normalizeLeaveType leave_type) = some lt)
    (hnup : lt ≠ .unpaid) (hse : s ≤ e)
    (hb : findBalance db employee_id lt = some b)
    (h2 : 2 * (e - s + 1) ≤ b.balance_days) :
    ∃ i1 i2 info1 info2 db1 db2,
      submit_leave_request db employee_id leave_type s e reason true
        = (.success i1 (e - s + 1) info1, db1) ∧
      submit_leave_request db1 employee_id leave_type s e reason true
        = (.success i2 (e - s + 1) info2, db2) ∧
      availableBalance db2 employee_id lt
        = availableBalance db employee_id lt - 2 * (e - s + 1) ∧
      db2.leave_requests.length = db.leave_requests.length + 2 := by
  have hbal1 : lt ≠ LeaveType.unpaid → ∃ c, findBalance db employee_id lt
      = some c ∧ e - s + 1 ≤ c.balance_days :=
    fun _ => ⟨b, hb, by omega⟩
  obtain ⟨info1, balances1, hcl1⟩ :=
    commitLeave_success_exists db employee_id lt s e reason (e - s + 1) hbal1
  have h1 : submit_leave_request db employee_id leave_type s e reason true
      = (.success db.next_leave_id (e - s + 1) info1, _) :=
    (submit_confirm_commits db employee_id leave_type s e reason lt hlt hse
      hbal1).trans hcl1
  obtain ⟨-, -, hreq1, -, -, -, -, hnup1⟩ := commitLeave_success_effects hcl1
  obtain ⟨b1, hfb1, hle1, hinfo1, hbal1'⟩ := hnup1 hnup
  rw [hb] at hfb1
  obtain rfl := Option.some.inj hfb1
  set db1 : DB :=
    { db with
       balances := balances1,
       leave_requests := db.leave_requests ++
         [⟨db.next_leave_id, employee_id, lt, s, e, reason, .pending⟩],
       next_leave_id := db.next_leave_id + 1 } with hdb1
  have hfind1 : findBalance db1 employee_id lt
      = some { b with balance_days := b.balance_days - (e - s + 1) } := by
    unfold findBalance
    rw [hbal1']
    exact findBalance_setFirst _ (by simpa [findBalance] using hb)
  have hbal2 : lt ≠ LeaveType.unpaid → ∃ c, findBalance db1 employee_id lt
      = some c ∧ e - s + 1 ≤ c.balance_days :=
    fun _ => ⟨_, hfind1, by simp; omega⟩
  obtain ⟨info2, balances2, hcl2⟩ :=
    commitLeave_success_exists db1 employee_id lt s e reason (e - s + 1) hbal2
  have h2' : submit_leave_request db1 employee_id leave_type s e reason true
      = (.success db1.next_leave_id (e - s + 1) info2, _) :=
    (submit_confirm_commits db1 employee_id leave_type s e reason lt hlt hse
      hbal2).trans hcl2
  obtain ⟨-, -, hreq2, -, -, -, -, hnup2⟩ := commitLeave_success_effects hcl2
  obtain ⟨b2, hfb2, hle2, hinfo2, hbal2'⟩ := hnup2 hnup
  rw [hfind1] at hfb2
  obtain rfl := Option.some.inj hfb2
  refine ⟨db.next_leave_id, db1.next_leave_id, info1, info2, db1, _,
    h1, h2', ?_, ?_⟩
  · have hfind2 : findBalance
        { db1 with
           balances := balances2,
           leave_requests := db1.leave_requests ++
             [⟨db1.next_leave_id, employee_id, lt, s, e, reason, .pending⟩],
           next_leave_id := db1.next_leave_id + 1 } employee_id lt
        = some { b with balance_days :=
            b.balance_days - (e - s + 1) - (e - s + 1) } := by
      unfold findBalance
      rw [hbal2']
      exact @findBalance_setFirst db1.balances employee_id lt
        ({ b with balance_days := b.balance_days - (e - s + 1) }.balance_days
          - (e - s + 1))
        { b with balance_days := b.balance_days - (e - s + 1) }
        (by simpa [findBalance] using hfind1)
    simp only [availableBalance, hfind2, hb]
    omega
  · rw [hreq2, hreq1]
    simp

/-- Witness for C4's amended theorem: the double deduction at the store
`dbA` (10 annual days, two identical 3-day commits). -/
theorem commit_not_idempotent_witness :
    ∃ i1 i2 info1 info2 db1 db2,
      submit_leave_request dbA "EMP001" "annual" 1 3 none true
        = (.success i1 (3 - 1 + 1) info1, db1) ∧
      submit_leave_request db1 "EMP001" "annual" 1 3 none true
        = (.success i2 (3 - 1 + 1) info2, db2) ∧
      availableBalance db2 "EMP001" .annual
        = availableBalance dbA "EMP001" .annual - 2 * (3 - 1 + 1) ∧
      db2.leave_requests.length = dbA.leave_requests.length + 2 :=
  commit_not_idempotent dbA "EMP001" "annual" 1 3 none .annual
    ⟨"EMP001", .annual, 10⟩ (by decide) (by decide) (by decide) (by decide)
    (by decide)

end Solvait
